import Mathlib

/-!
Verification of the batchmail Recipient–Attachment Reconciliation &
Batch Composition engine.

Shallow embedding of the TypeScript sources:
  - src/app/components/ui/AttachmentsUploader.tsx
  - src/app/components/ui/CsvUploader.tsx
  - src/app/actions/attachments.ts

JavaScript strings are modelled as Lean `String`s, with the string
operations the code uses (toLowerCase, trim, endsWith, includes,
lastIndexOf, slice) re-implemented over the underlying character lists so
that everything reduces by `decide`/`rfl`.  JavaScript objects used as
string-keyed records (`Record<string, string>`, `AttachIndex`) are
modelled as association lists; `Object.entries`/`Object.values` is then
the list itself.  `undefined`/optional fields become `Option`.
-/

namespace Batchmail

/-! ## JavaScript-style string primitives -/

/-- JS `s.toLowerCase()` (ASCII-adequate for the headers and extensions used). -/
def jsToLower (s : String) : String :=
  String.mk (s.data.map Char.toLower)

/-- JS `s.trim()`: strip leading and trailing whitespace. -/
def jsTrim (s : String) : String :=
  String.mk ((s.data.dropWhile Char.isWhitespace).reverse.dropWhile Char.isWhitespace |>.reverse)

/-- JS `s.endsWith(suffix)`. -/
def jsEndsWith (s suffix : String) : Bool :=
  suffix.data.isSuffixOf s.data

/-- JS `s.includes(sub)`: substring containment. -/
def jsIncludes (s sub : String) : Bool :=
  s.data.tails.any (fun t => sub.data.isPrefixOf t)

/-- JS `s.lastIndexOf(c)`: index of the last occurrence of character `c`,
`none` when absent (JS returns -1). -/
def lastIdxOf (c : Char) : List Char → Option Nat
  | [] => none
  | a :: rest =>
    match lastIdxOf c rest with
    | some i => some (i + 1)
    | none => if a = c then some 0 else none

/-- JS `a || b` on a possibly-undefined string: falsy (`undefined` or `""`)
falls through to the default. -/
def jsOrStr (a : Option String) (b : String) : String :=
  match a with
  | some v => if v = "" then b else v
  | none => b

/-! ## Data model (types from the sources) -/

/-- Type `AttachmentEntry` (AttachmentsUploader.tsx / attachments.ts):
filename, base64 payload, optional declared content type, optional size. -/
structure AttachmentEntry where
  filename : String
  contentBase64 : String
  contentType : Option String
  sizeBytes : Option Nat
deriving Repr, DecidableEq

/-- Type `AttachIndex = Record<string, AttachmentEntry[]>`, keyed by normalized
name; modelled as the entry list `Object.entries` would yield. -/
abbrev AttachIndex := List (String × List AttachmentEntry)

/-- One CSV row, `Record<string, string>`, as an association list. -/
abbrev Row := List (String × String)

/-- Reading `r[k]` coerced with `String(r[k] || "")`: absent or empty cells read
as the empty string. -/
def rowGet (r : Row) (k : String) : String :=
  (r.lookup k).getD ""

/-- Type `ParsedCsv` (CsvUploader.tsx). -/
structure ParsedCsv where
  headers : List String
  rows : List Row
  rowCount : Nat
deriving Repr, DecidableEq

/-- Type `CsvMapping` (CsvUploader.tsx): `subject` is nullable. -/
structure CsvMapping where
  recipient : String
  name : String
  subject : Option String
deriving Repr, DecidableEq

/-! ## Key normalizer -/

/-- Modelled from the spec: the body of `normalizeNameKey`
(`@/lib/normalizeName`) is not part of the provided sources.  The spec
requires a total, case-insensitive, whitespace-insensitive fold:
leading/trailing whitespace trimmed and internal runs collapsed.  None of
the verified claims depends on the exact folding rule. -/
def normalizeNameKey (s : String) : String :=
  jsToLower (String.intercalate " " ((s.data.splitOnP Char.isWhitespace).map String.mk |>.filter (· ≠ "")))

/-! ## Base-name extraction (`fileBaseName`, identical in
AttachmentsUploader.tsx and attachments.ts):
`const idx = name.lastIndexOf('.'); return idx > 0 ? name.slice(0, idx) : name;` -/

def fileBaseName (name : String) : String :=
  match lastIdxOf '.' name.data with
  | some idx => if 0 < idx then String.mk (name.data.take idx) else name
  | none => name

/-! ## Column mapping inference (CsvUploader.tsx) -/

/-- Regex test `/^(email|e-mail|recipient|to|address)$/i.test(h)` -/
def isRecipientHeader (h : String) : Bool :=
  let l := jsToLower h
  l == "email" || l == "e-mail" || l == "recipient" || l == "to" || l == "address"

/-- the optional separator in `full[_\s-]?name` / `first[_\s-]?name` -/
def sepChar (c : Char) : Bool :=
  c = '_' || c.isWhitespace || c = '-'

/-- tail of the name-header regex: `rest` is `name` or one separator
followed by `name`. -/
def nameTail (rest : List Char) : Bool :=
  rest == "name".data ||
    (match rest with
     | c :: rest2 => sepChar c && rest2 == "name".data
     | [] => false)

/-- Regex test `/^(name|full[_\s-]?name|first[_\s-]?name)$/i.test(h)` -/
def isNameHeader (h : String) : Bool :=
  let l := (jsToLower h).data
  l == "name".data ||
    (match l with
     | 'f' :: 'u' :: 'l' :: 'l' :: rest => nameTail rest
     | _ => false) ||
    (match l with
     | 'f' :: 'i' :: 'r' :: 's' :: 't' :: rest => nameTail rest
     | _ => false)

/-- Regex test `/^(subject|title|headline|topic)$/i.test(h)` -/
def isSubjectHeader (h : String) : Bool :=
  let l := jsToLower h
  l == "subject" || l == "title" || l == "headline" || l == "topic"

/-- Source `headers.find(h => /^(email|...)$/i.test(h)) || headers[0] || ""`
(a regex match is never the empty string, so `find`'s result is truthy). -/
def guessRecipient (headers : List String) : String :=
  match headers.find? isRecipientHeader with
  | some h => h
  | none => headers.headD ""

/-- Source `headers.find(h => /^(name|...)$/i.test(h)) || headers[0] || ""` -/
def guessName (headers : List String) : String :=
  match headers.find? isNameHeader with
  | some h => h
  | none => headers.headD ""

/-- Source `headers.find(h => /^(subject|...)$/i.test(h)) || null` -/
def guessSubject (headers : List String) : Option String :=
  headers.find? isSubjectHeader

def DEFAULT_HEADERS : List String := ["email", "name"]

/-! ## CsvUploader component state and operations

The React state cells `csv`, `mapping`, `error`, `manualRow` form the
state; the `onParsed` callback invocation is returned as an extra
`Option (ParsedCsv × CsvMapping)` event. -/

structure CsvState where
  csv : Option ParsedCsv
  mapping : Option CsvMapping
  error : Option String
  manualRow : Row
deriving Repr, DecidableEq

/-- The mapping computed inside `handleFile`'s `complete` callback:
`{ recipient: mapping?.recipient || guessRecipient(headers), name:
mapping?.name || guessName(headers), subject: mapping?.subject ??
guessSubject(headers) }`. -/
def nextMappingOnLoad (prior : Option CsvMapping) (headers : List String) : CsvMapping :=
  { recipient := jsOrStr (prior.map (·.recipient)) (guessRecipient headers)
    name := jsOrStr (prior.map (·.name)) (guessName headers)
    subject :=
      match prior.bind (·.subject) with
      | some s => some s
      | none => guessSubject headers }

/-- Function `handleFile` (CsvUploader.tsx 44–75): `setError(null)` up front, then
the Papa `complete` callback over the externally parsed `headers`/`rows`.
Empty header list: set the error and return, leaving `csv`/`mapping`
untouched.  Otherwise store the parsed table, recompute the mapping, and
fire `onParsed`. -/
def handleFile (headers : List String) (rows : List Row) (st : CsvState) :
    CsvState × Option (ParsedCsv × CsvMapping) :=
  let st1 := { st with error := none }
  if headers.length = 0 then
    ({ st1 with error := some "No headers found. Ensure the first row contains column names." }, none)
  else
    let parsed : ParsedCsv := { headers := headers, rows := rows, rowCount := rows.length }
    let nextMapping := nextMappingOnLoad st.mapping headers
    ({ st1 with csv := some parsed, mapping := some nextMapping }, some (parsed, nextMapping))

/-- Function `onChangeSelect` (CsvUploader.tsx 77–82): overwrite one mapping field
with the select's value (`value || null` for subject), no validation. -/
def onChangeSelect (key : String) (value : String) (st : CsvState) :
    CsvState × Option (ParsedCsv × CsvMapping) :=
  match st.csv with
  | none => (st, none)
  | some c =>
    let base := st.mapping.getD { recipient := "", name := "", subject := none }
    let next : CsvMapping :=
      if key = "recipient" then { base with recipient := value }
      else if key = "name" then { base with name := value }
      else { base with subject := if value = "" then none else some value }
    ({ st with mapping := some next }, some (c, next))

/-- Function `initializeManualEntry` (CsvUploader.tsx 84–104). -/
def initializeManualEntry (st : CsvState) : CsvState :=
  match st.csv with
  | none =>
    { st with
      csv := some { headers := DEFAULT_HEADERS, rows := [], rowCount := 0 }
      mapping := some { recipient := "email", name := "name", subject := none }
      manualRow := [("email", ""), ("name", "")] }
  | some c =>
    { st with manualRow := c.headers.map (fun h => (h, "")) }

/-- Function `addManualRow` (CsvUploader.tsx 106–131): reject when the cell under
the mapped recipient column is absent or empty after trimming, leaving the
table untouched; otherwise append the manual row, refresh the row count,
fire `onParsed`, and blank the entry row. -/
def addManualRow (st : CsvState) : CsvState × Option (ParsedCsv × CsvMapping) :=
  let headers := match st.csv with | some c => c.headers | none => DEFAULT_HEADERS
  let currentMapping := st.mapping.getD { recipient := "email", name := "name", subject := none }
  let recipientKey := jsOrStr (some currentMapping.recipient) "email"
  if jsTrim (rowGet st.manualRow recipientKey) = "" then
    ({ st with error := some "Email/recipient field is required." }, none)
  else
    let newRows := (match st.csv with | some c => c.rows | none => []) ++ [st.manualRow]
    let parsed : ParsedCsv := { headers := headers, rows := newRows, rowCount := newRows.length }
    ({ st with
        csv := some parsed
        error := none
        manualRow := headers.map (fun h => (h, "")) },
      some (parsed, currentMapping))

/-- Delete-row handler (CsvUploader.tsx 242–251):
`csv.rows.filter((_, i) => i !== rowIndex)`; `onParsed` only fires when a
mapping exists.  (The handler is only rendered when `csv` is non-null.) -/
def deleteRow (rowIndex : Nat) (st : CsvState) : CsvState × Option (ParsedCsv × CsvMapping) :=
  match st.csv with
  | none => (st, none)
  | some c =>
    let newRows := (c.rows.enum.filter (fun p => p.1 ≠ rowIndex)).map (·.2)
    let parsed : ParsedCsv := { headers := c.headers, rows := newRows, rowCount := newRows.length }
    ({ st with csv := some parsed }, st.mapping.map (fun m => (parsed, m)))

/-! ## AttachmentsUploader: reconciliation and batch policy -/

/-- Memo `rowsNameSet` (AttachmentsUploader.tsx 41–48): the set of normalized
name-column values; empty when either `csv` or `mapping` is null.
Modelled as the list of keys (only membership is consumed). -/
def rowsNameSet (csv : Option ParsedCsv) (mapping : Option CsvMapping) : List String :=
  match csv, mapping with
  | some c, some m => c.rows.map (fun r => normalizeNameKey (rowGet r m.name))
  | _, _ => []

/-- A matched (recipient display name, matched filenames) pair. -/
structure MatchedPair where
  name : String
  files : List String
deriving Repr, DecidableEq

/-- Type `ReconciliationResult` of the spec: the record returned by the `computed` memo. -/
structure ComputedResult where
  files : Nat
  matched : Nat
  unmatched : Nat
  unmatchedFiles : List String
  matchedPairs : List MatchedPair
deriving Repr, DecidableEq

/-- The original-name recovery inside the matched branch:
`csv?.rows.find(r => normalizeNameKey(String(r[mapping?.name || ""] || "")) === key)?.[mapping?.name || ""] || key`. -/
def originalNameFor (csv : Option ParsedCsv) (mname : String) (key : String) : String :=
  match csv with
  | none => key
  | some c =>
    match c.rows.find? (fun r => normalizeNameKey (rowGet r mname) == key) with
    | some r => jsOrStr (some (rowGet r mname)) key
    | none => key

/-- The `for (const [key, arr] of Object.entries(value))` loop, as a left
fold over (matched, unmatchedFiles, matchedPairs). -/
def computedLoop (nameSet : List String) (csv : Option ParsedCsv) (mname : String)
    (value : AttachIndex) (acc : Nat × List String × List MatchedPair) :
    Nat × List String × List MatchedPair :=
  value.foldl
    (fun acc kv =>
      if nameSet.contains kv.1 then
        (acc.1 + kv.2.length,
         acc.2.1,
         acc.2.2 ++ [{ name := originalNameFor csv mname kv.1, files := kv.2.map (·.filename) }])
      else
        (acc.1, acc.2.1 ++ kv.2.map (·.filename), acc.2.2))
    acc

/-- Memo `computed` (AttachmentsUploader.tsx 50–69): totals, matched count,
unmatched count computed as `files - matched`, the unmatched filename
list, and the matched pairs. -/
def computed (value : AttachIndex) (nameSet : List String)
    (csv : Option ParsedCsv) (mapping : Option CsvMapping) : ComputedResult :=
  let files := value.foldl (fun acc kv => acc + kv.2.length) 0
  let mname := jsOrStr (mapping.map (·.name)) ""
  let loop := computedLoop nameSet csv mname value (0, [], [])
  { files := files
    matched := loop.1
    unmatched := files - loop.1
    unmatchedFiles := loop.2.1
    matchedPairs := loop.2.2 }

/-- The per-entry hazard test inside `largePdfDetected`
(AttachmentsUploader.tsx 76–83): `size = entry.sizeBytes ?? 0`, pdf by
content type containing "pdf" or filename ending ".pdf" (both
lower-cased), size within `[1024*1024, 2*1024*1024]`. -/
def largePdfEntry (entry : AttachmentEntry) : Bool :=
  let min := 1024 * 1024
  let max := 2 * (1024 * 1024)
  let size := entry.sizeBytes.getD 0
  let filename := jsToLower entry.filename
  let mime := jsToLower (entry.contentType.getD "")
  let isPdf := jsIncludes mime "pdf" || jsEndsWith filename ".pdf"
  isPdf && decide (min ≤ size) && decide (size ≤ max)

/-- Memo `largePdfDetected` (AttachmentsUploader.tsx 71–86): some bucket holds
a hazardous entry. -/
def largePdfDetected (value : AttachIndex) : Bool :=
  value.any (fun kv => kv.2.any largePdfEntry)

/-! ## Attachment ingestion (attachments.ts / AttachmentsUploader.onUpload) -/

/-- An already-ingested browser `File`: name, declared MIME type (`""`
when undeclared), size, and the base64 payload its decode would yield —
`none` when `arrayBuffer()`/encoding throws (`DecodeFailure`). -/
structure UFile where
  name : String
  type : String
  size : Option Nat
  decoded : Option String
deriving Repr, DecidableEq

/-- The entry built from a successfully decoded file (attachments.ts
57–65 and AttachmentsUploader.tsx 99–104): `contentType: file.type ||
undefined`, `sizeBytes: typeof file.size === "number" ? file.size :
undefined`. -/
def entryOf (f : UFile) (contentBase64 : String) : AttachmentEntry :=
  { filename := f.name
    contentBase64 := contentBase64
    contentType := if f.type = "" then none else some f.type
    sizeBytes := f.size }

/-- The normalized index key of a file (attachments.ts 56):
`normalizeNameKey(fileBaseName(file.name))`. -/
def keyOf (f : UFile) : String :=
  normalizeNameKey (fileBaseName f.name)

/-- Source `failed.push(file.name || "(unknown)")`. -/
def failedName (f : UFile) : String :=
  jsOrStr (some f.name) "(unknown)"

/-- The per-file loop of `uploadAttachmentsAction` (attachments.ts
53–69): decode each file in order; successes are pushed onto `items` with
their key, failures onto `failed`; one failure never stops the loop. -/
def processFiles : List UFile → List (String × AttachmentEntry) × List String
  | [] => ([], [])
  | f :: fs =>
    let rest := processFiles fs
    match f.decoded with
    | some b64 => ((keyOf f, entryOf f b64) :: rest.1, rest.2)
    | none => (rest.1, failedName f :: rest.2)

/-- Function `uploadAttachmentsAction` (attachments.ts 41–72): reject an empty
file list, otherwise return every decoded item plus the failed names. -/
def uploadAttachmentsAction (files : List UFile) :
    Except String (List (String × AttachmentEntry) × List String) :=
  if files.length = 0 then
    Except.error "No files provided"
  else
    Except.ok (processFiles files)

/-- Source `next[normalized] = [...(next[normalized] || []), entry]`: append an
entry to its bucket in the association-list index, creating the bucket at
the end when new (JS object key insertion order). -/
def indexAppend (idx : AttachIndex) (key : String) (entry : AttachmentEntry) : AttachIndex :=
  if idx.any (fun kv => kv.1 == key) then
    idx.map (fun kv => if kv.1 == key then (kv.1, kv.2 ++ [entry]) else kv)
  else
    idx ++ [(key, [entry])]

/-- The loop of `onUpload` (AttachmentsUploader.tsx 92–109): fold the
files into the index, collecting decode failures; `onChange(next)` then
commits the index even when `failed` is non-empty. -/
def onUploadLoop : List UFile → AttachIndex → List String → AttachIndex × List String
  | [], next, failed => (next, failed)
  | f :: fs, next, failed =>
    match f.decoded with
    | some b64 => onUploadLoop fs (indexAppend next (keyOf f) (entryOf f b64)) failed
    | none => onUploadLoop fs next (failed ++ [failedName f])

/-! ## Helper lemmas -/

/-- Total number of attachment entries across the index's buckets. -/
def totalFiles (value : AttachIndex) : Nat :=
  (value.map (fun kv => kv.2.length)).sum

theorem foldl_files_eq (value : AttachIndex) :
    ∀ n : Nat, value.foldl (fun acc kv => acc + kv.2.length) n = n + totalFiles value := by
  induction value with
  | nil => intro n; simp [totalFiles]
  | cons kv rest ih =>
    intro n
    simp only [List.foldl_cons, ih, totalFiles, List.map_cons, List.sum_cons]
    omega

theorem computedLoop_conserve (nameSet : List String) (csv : Option ParsedCsv) (mname : String) :
    ∀ (value : AttachIndex) (m : Nat) (u : List String) (p : List MatchedPair),
      (computedLoop nameSet csv mname value (m, u, p)).1 +
        (computedLoop nameSet csv mname value (m, u, p)).2.1.length =
      m + u.length + totalFiles value := by
  intro value
  induction value with
  | nil => intro m u p; simp [computedLoop, totalFiles]
  | cons kv rest ih =>
    intro m u p
    have htf : totalFiles (kv :: rest) = kv.2.length + totalFiles rest := by
      simp [totalFiles]
    simp only [computedLoop, List.foldl_cons] at ih ⊢
    by_cases hmem : nameSet.contains kv.1 = true
    · simp only [hmem, if_true]
      have h2 := ih (m + kv.2.length) u
        (p ++ [{ name := originalNameFor csv mname kv.1, files := kv.2.map (·.filename) }])
      rw [htf]
      omega
    · simp only [if_neg hmem]
      have h2 := ih m (u ++ kv.2.map (·.filename)) p
      rw [List.length_append, List.length_map] at h2
      rw [htf]
      omega

end Batchmail

namespace Batchmail

/-- C1: for every attachment index and every recipient table with a
column mapping, the reconciliation result satisfies
`matched + unmatched = files`, and the `unmatched` count — computed by the
code as the subtraction `files - matched` — equals the number of
filenames actually placed in the unmatched-files list. -/
theorem computed_conservation (value : AttachIndex) (csv : Option ParsedCsv)
    (mapping : Option CsvMapping) :
    (computed value (rowsNameSet csv mapping) csv mapping).matched +
        (computed value (rowsNameSet csv mapping) csv mapping).unmatched =
      (computed value (rowsNameSet csv mapping) csv mapping).files ∧
    (computed value (rowsNameSet csv mapping) csv mapping).unmatched =
      (computed value (rowsNameSet csv mapping) csv mapping).unmatchedFiles.length := by
  have hkey := computedLoop_conserve (rowsNameSet csv mapping) csv
    (jsOrStr (mapping.map (·.name)) "") value 0 [] []
  simp only [List.length_nil, Nat.add_zero, Nat.zero_add] at hkey
  simp only [computed, foldl_files_eq value 0, Nat.zero_add]
  constructor <;> omega

/-- Per-entry reading of the hazard test: the code's `sizeBytes ?? 0` and
`contentType || ""` defaults coincide with the spec's reading, because
size 0 is below the 1 MiB floor and the empty string does not contain
"pdf". -/
theorem largePdfEntry_iff (e : AttachmentEntry) :
    largePdfEntry e = true ↔
      ((∃ ct, e.contentType = some ct ∧ jsIncludes (jsToLower ct) "pdf" = true) ∨
          jsEndsWith (jsToLower e.filename) ".pdf" = true) ∧
      ∃ s, e.sizeBytes = some s ∧ 1048576 ≤ s ∧ s ≤ 2097152 := by
  obtain ⟨fn, cb, ct, sz⟩ := e
  have hempty : jsIncludes (jsToLower "") "pdf" = false := by decide
  constructor
  · intro h
    simp only [largePdfEntry, Bool.and_eq_true, Bool.or_eq_true, decide_eq_true_eq] at h
    obtain ⟨⟨hpdf, h1⟩, h2⟩ := h
    cases sz with
    | none => simp at h1
    | some s =>
      simp only [Option.getD_some] at h1 h2
      refine ⟨?_, s, rfl, by omega, by omega⟩
      cases ct with
      | none =>
        rcases hpdf with hmime | hfile
        · rw [show (Option.getD (α := String) none "") = "" from rfl, hempty] at hmime
          cases hmime
        · exact Or.inr hfile
      | some c =>
        rcases hpdf with hmime | hfile
        · exact Or.inl ⟨c, rfl, hmime⟩
        · exact Or.inr hfile
  · rintro ⟨hpdf, s, hs, h1, h2⟩
    cases hs
    simp only [largePdfEntry, Bool.and_eq_true, Bool.or_eq_true, decide_eq_true_eq,
      Option.getD_some]
    refine ⟨⟨?_, by omega⟩, by omega⟩
    rcases hpdf with ⟨c, hc, hmime⟩ | hfile
    · cases hc
      exact Or.inl (by simpa using hmime)
    · exact Or.inr hfile

/-- Index-level reading of the hazard scan, via `largePdfEntry_iff`. -/
theorem largePdfDetected_cases (value : AttachIndex) :
    largePdfDetected value = true ↔
      ∃ kv ∈ value, ∃ e ∈ kv.2,
        ((∃ ct, e.contentType = some ct ∧ jsIncludes (jsToLower ct) "pdf" = true) ∨
            jsEndsWith (jsToLower e.filename) ".pdf" = true) ∧
        ∃ s, e.sizeBytes = some s ∧ 1048576 ≤ s ∧ s ≤ 2097152 := by
  simp only [largePdfDetected, List.any_eq_true, largePdfEntry_iff]

/-- C2: the single-recipient-per-send restriction flag is set iff some
entry in some bucket is a PDF — its declared content type contains "pdf"
case-insensitively, or its filename ends in ".pdf" case-insensitively —
whose declared size lies in the inclusive range [1 048 576, 2 097 152]. -/
theorem largePdfDetected_iff (value : AttachIndex) :
    largePdfDetected value = true ↔
      ∃ kv ∈ value, ∃ e ∈ kv.2,
        ((∃ ct, e.contentType = some ct ∧ jsIncludes (jsToLower ct) "pdf" = true) ∨
            jsEndsWith (jsToLower e.filename) ".pdf" = true) ∧
        ∃ s, e.sizeBytes = some s ∧ 1048576 ≤ s ∧ s ≤ 2097152 :=
  largePdfDetected_cases value

/-- Witness for C2: a 1.5 MB `application/pdf` attachment sets the flag. -/
theorem largePdfDetected_iff_witness :
    largePdfDetected
        [("jane", [{ filename := "jane.pdf", contentBase64 := "", contentType := some "application/pdf",
                     sizeBytes := some 1500000 }])] = true :=
  (largePdfDetected_iff _).mpr
    ⟨("jane", [{ filename := "jane.pdf", contentBase64 := "", contentType := some "application/pdf",
                 sizeBytes := some 1500000 }]),
      by decide,
      { filename := "jane.pdf", contentBase64 := "", contentType := some "application/pdf",
        sizeBytes := some 1500000 },
      by decide,
      Or.inl ⟨"application/pdf", rfl, by decide⟩,
      1500000, rfl, by decide, by decide⟩

/-- C9: the batch-policy check reads an absent `sizeBytes` as 0, so an
attachment with no declared size never satisfies the per-entry hazard
test, and an index whose entries all lack a declared size never sets the
restriction flag. -/
theorem largePdf_missing_size (e : AttachmentEntry) (he : e.sizeBytes = none) :
    largePdfEntry e = false ∧
    ∀ value : AttachIndex,
      (∀ kv ∈ value, ∀ x ∈ kv.2, x.sizeBytes = none) → largePdfDetected value = false := by
  constructor
  · obtain ⟨fn, cb, ct, sz⟩ := e
    cases he
    simp [largePdfEntry]
  · intro value hall
    rw [← Bool.not_eq_true, largePdfDetected_cases]
    rintro ⟨kv, hkv, x, hx, -, s, hs, -⟩
    rw [hall kv hkv x hx] at hs
    cases hs

/-- Witness for C9: a PDF-named, PDF-typed attachment with no declared
size does not trigger the restriction. -/
theorem largePdf_missing_size_witness :
    largePdfEntry { filename := "big.pdf", contentBase64 := "",
                    contentType := some "application/pdf", sizeBytes := none } = false ∧
    largePdfDetected
        [("big", [{ filename := "big.pdf", contentBase64 := "",
                    contentType := some "application/pdf", sizeBytes := none }])] = false := by
  have h := largePdf_missing_size
    { filename := "big.pdf", contentBase64 := "",
      contentType := some "application/pdf", sizeBytes := none } rfl
  exact ⟨h.1, h.2 _ (by decide)⟩

theorem lastIdxOf_eq_none {c : Char} : ∀ {cs : List Char}, c ∉ cs → lastIdxOf c cs = none := by
  intro cs
  induction cs with
  | nil => intro _; rfl
  | cons a rest ih =>
    intro h
    have ha : a ≠ c := fun hac => h (hac ▸ List.mem_cons_self a rest)
    have hrest : c ∉ rest := fun hm => h (List.mem_cons_of_mem a hm)
    simp [lastIdxOf, ih hrest, ha]

theorem lastIdxOf_last_dot (post : List Char) (hpost : '.' ∉ post) :
    ∀ pre : List Char, lastIdxOf '.' (pre ++ '.' :: post) = some pre.length := by
  intro pre
  induction pre with
  | nil => simp [lastIdxOf, lastIdxOf_eq_none hpost]
  | cons a rest ih => simp [lastIdxOf, ih]

/-- C3: the base-name function strips only the final extension segment,
and only a "." that is not the first character demarcates one: a name
whose tail (everything after its first character) has no "." is returned
unchanged, a name `pre ++ "." ++ post` with non-empty `pre` and dot-free
`post` loses exactly `"." ++ post`; in particular
`fileBaseName "report.v2.pdf" = "report.v2"`,
`fileBaseName "README" = "README"`, and
`fileBaseName ".gitignore" = ".gitignore"`. -/
theorem fileBaseName_spec :
    (∀ pre post : List Char, pre ≠ [] → '.' ∉ post →
        fileBaseName (String.mk (pre ++ '.' :: post)) = String.mk pre) ∧
    (∀ cs : List Char, '.' ∉ cs.drop 1 → fileBaseName (String.mk cs) = String.mk cs) ∧
    fileBaseName "report.v2.pdf" = "report.v2" ∧
    fileBaseName "README" = "README" ∧
    fileBaseName ".gitignore" = ".gitignore" := by
  refine ⟨?_, ?_, by decide, by decide, by decide⟩
  · intro pre post hpre hpost
    have hidx := lastIdxOf_last_dot post hpost pre
    have hlen : 0 < pre.length := List.length_pos.mpr hpre
    simp only [fileBaseName, hidx, if_pos hlen]
    congr 1
    exact List.take_left pre ('.' :: post)
  · intro cs hdot
    cases cs with
    | nil => rfl
    | cons a rest =>
      have hrest : '.' ∉ rest := by simpa using hdot
      by_cases ha : a = '.'
      · simp [fileBaseName, lastIdxOf, lastIdxOf_eq_none hrest, ha]
      · simp [fileBaseName, lastIdxOf, lastIdxOf_eq_none hrest, ha]

/-- Witness for C3: the general clauses applied to `"a.b"` and `"README"`
as concrete character lists. -/
theorem fileBaseName_spec_witness :
    fileBaseName (String.mk (['a'] ++ '.' :: ['b'])) = String.mk ['a'] ∧
    fileBaseName (String.mk ['R', 'E', 'A', 'D', 'M', 'E']) = String.mk ['R', 'E', 'A', 'D', 'M', 'E'] :=
  ⟨fileBaseName_spec.1 ['a'] ['b'] (by decide) (by decide),
   fileBaseName_spec.2.1 ['R', 'E', 'A', 'D', 'M', 'E'] (by decide)⟩

/-- C4 counterexample: reloading a table whose prior mapping chose
`"Email"` with new headers `["addr"]` keeps `recipient = "Email"`, a
column absent from the new header list, and still fires `onParsed` — the
mapping layer performs no rejection, so reconciliation does run against a
mapping whose recipient column is not a current header. -/
theorem mapping_reload_not_rejected :
    ((handleFile ["addr"] []
          { csv := some { headers := ["Email", "Name"], rows := [], rowCount := 0 },
            mapping := some { recipient := "Email", name := "Name", subject := none },
            error := none, manualRow := [] }).2.map
        (fun p => (p.2.recipient, p.1.headers))) = some ("Email", ["addr"]) ∧
    ("Email" ∈ ["addr"]) = False := by
  constructor
  · decide
  · simp

/-- C4 (amended): the mapping layer performs no membership validation —
on a table reload every non-empty prior mapping field is carried over
verbatim, even when absent from the new headers; only when a field had no
prior choice is it inferred, and the inferred recipient and name columns
always lie in the (non-empty) current header list. -/
theorem mapping_no_validation (headers : List String) (m : CsvMapping)
    (h : headers ≠ []) :
    (nextMappingOnLoad none headers).recipient ∈ headers ∧
    (nextMappingOnLoad none headers).name ∈ headers ∧
    (m.recipient ≠ "" →
      (nextMappingOnLoad (some m) headers).recipient = m.recipient) ∧
    (m.name ≠ "" →
      (nextMappingOnLoad (some m) headers).name = m.name) := by
  have hhead : headers.headD "" ∈ headers := by
    cases headers with
    | nil => exact absurd rfl h
    | cons a rest => exact List.mem_cons_self a rest
  refine ⟨?_, ?_, ?_, ?_⟩
  · simp only [nextMappingOnLoad, Option.map_none', jsOrStr, guessRecipient]
    cases hf : headers.find? isRecipientHeader with
    | none => exact hhead
    | some x => exact List.mem_of_find?_eq_some hf
  · simp only [nextMappingOnLoad, Option.map_none', jsOrStr, guessName]
    cases hf : headers.find? isNameHeader with
    | none => exact hhead
    | some x => exact List.mem_of_find?_eq_some hf
  · intro hne
    simp [nextMappingOnLoad, jsOrStr, hne]
  · intro hne
    simp [nextMappingOnLoad, jsOrStr, hne]

/-- Witness for the amended C4: with headers `["addr"]`, a fresh
inference lands in the headers, while the stale field `"Email"` is kept
verbatim. -/
theorem mapping_no_validation_witness :
    (nextMappingOnLoad none ["addr"]).recipient ∈ ["addr"] ∧
    (nextMappingOnLoad (some { recipient := "Email", name := "Name", subject := none })
        ["addr"]).recipient = "Email" := by
  obtain ⟨h1, h2, h3, h4⟩ := mapping_no_validation ["addr"]
    { recipient := "Email", name := "Name", subject := none } (by decide)
  exact ⟨h1, h3 (by decide)⟩

/-- C8: column-mapping inference scans headers in order — the inferred
recipient column is the first header equal, case-insensitively and as a
whole string, to one of email / e-mail / recipient / to / address,
falling back to the first header when none matches; the inferred subject
column is the first header matching subject / title / headline / topic,
and is `none` (not the first header) when no header matches. -/
theorem guess_columns_spec :
    (∀ (pre : List String) (h : String) (post : List String),
        (∀ x ∈ pre, isRecipientHeader x = false) → isRecipientHeader h = true →
        guessRecipient (pre ++ h :: post) = h) ∧
    (∀ headers : List String, headers ≠ [] →
        (∀ x ∈ headers, isRecipientHeader x = false) →
        guessRecipient headers = headers.headD "") ∧
    (∀ (pre : List String) (h : String) (post : List String),
        (∀ x ∈ pre, isSubjectHeader x = false) → isSubjectHeader h = true →
        guessSubject (pre ++ h :: post) = some h) ∧
    (∀ headers : List String, (∀ x ∈ headers, isSubjectHeader x = false) →
        guessSubject headers = none) := by
  have hfind : ∀ (p : String → Bool) (pre : List String) (h : String) (post : List String),
      (∀ x ∈ pre, p x = false) → p h = true →
      (pre ++ h :: post).find? p = some h := by
    intro p pre h post hpre hh
    induction pre with
    | nil => simp [List.find?_cons, hh]
    | cons a rest ih =>
      have ha : p a = false := hpre a (List.mem_cons_self a rest)
      simp only [List.cons_append, List.find?_cons, ha]
      exact ih fun x hx => hpre x (List.mem_cons_of_mem a hx)
  refine ⟨?_, ?_, ?_, ?_⟩
  · intro pre h post hpre hh
    simp [guessRecipient, hfind isRecipientHeader pre h post hpre hh]
  · intro headers _ hnone
    have : headers.find? isRecipientHeader = none :=
      List.find?_eq_none.mpr fun x hx => by simp [hnone x hx]
    simp [guessRecipient, this]
  · intro pre h post hpre hh
    simp [guessSubject, hfind isSubjectHeader pre h post hpre hh]
  · intro headers hnone
    exact List.find?_eq_none.mpr fun x hx => by simp [hnone x hx]

/-- Witness for C8: `["Name", "E-Mail", "X"]` infers the second header as
recipient; `["a", "b"]` has no subject column. -/
theorem guess_columns_spec_witness :
    guessRecipient (["Name"] ++ "E-Mail" :: ["X"]) = "E-Mail" ∧
    guessSubject ["a", "b"] = none :=
  ⟨guess_columns_spec.1 ["Name"] "E-Mail" ["X"] (by decide) (by decide),
   guess_columns_spec.2.2.2 ["a", "b"] (by decide)⟩

/-- C5: loading a table whose parsed header list is empty fails with the
no-headers error, fires no `onParsed` event, and leaves the prior table
state — `csv` (headers, rows, row count) and `mapping` — completely
unchanged. -/
theorem noheaders_atomic (headers : List String) (rows : List Row) (st : CsvState)
    (h : headers = []) :
    (handleFile headers rows st).1.csv = st.csv ∧
    (handleFile headers rows st).1.mapping = st.mapping ∧
    (handleFile headers rows st).1.error =
      some "No headers found. Ensure the first row contains column names." ∧
    (handleFile headers rows st).2 = none := by
  subst h
  simp [handleFile]

/-- Witness for C5: an empty header list leaves a loaded one-row table
untouched. -/
theorem noheaders_atomic_witness :
    (handleFile [] [[("a", "1")]]
        { csv := some { headers := ["a"], rows := [[("a", "1")]], rowCount := 1 },
          mapping := some { recipient := "a", name := "a", subject := none },
          error := none, manualRow := [] }).1.csv =
      some { headers := ["a"], rows := [[("a", "1")]], rowCount := 1 } ∧
    (handleFile [] [[("a", "1")]]
        { csv := some { headers := ["a"], rows := [[("a", "1")]], rowCount := 1 },
          mapping := some { recipient := "a", name := "a", subject := none },
          error := none, manualRow := [] }).1.mapping =
      some { recipient := "a", name := "a", subject := none } ∧
    (handleFile [] [[("a", "1")]]
        { csv := some { headers := ["a"], rows := [[("a", "1")]], rowCount := 1 },
          mapping := some { recipient := "a", name := "a", subject := none },
          error := none, manualRow := [] }).1.error =
      some "No headers found. Ensure the first row contains column names." ∧
    (handleFile [] [[("a", "1")]]
        { csv := some { headers := ["a"], rows := [[("a", "1")]], rowCount := 1 },
          mapping := some { recipient := "a", name := "a", subject := none },
          error := none, manualRow := [] }).2 = none :=
  noheaders_atomic [] [[("a", "1")]]
    { csv := some { headers := ["a"], rows := [[("a", "1")]], rowCount := 1 },
      mapping := some { recipient := "a", name := "a", subject := none },
      error := none, manualRow := [] } rfl

/-- C6: a manual append whose cell under the mapped recipient column is
absent or empty after trimming fails with the missing-recipient error and
leaves the table (rows and row count) unchanged; a non-empty cell appends
exactly the one manual record, preserving the full header set and
incrementing the row count by one. -/
theorem addManualRow_spec (st : CsvState) :
    (jsTrim (rowGet st.manualRow
          (jsOrStr (some (st.mapping.getD
              { recipient := "email", name := "name", subject := none }).recipient) "email")) = "" →
        (addManualRow st).1.csv = st.csv ∧
        (addManualRow st).1.error = some "Email/recipient field is required." ∧
        (addManualRow st).2 = none) ∧
    (jsTrim (rowGet st.manualRow
          (jsOrStr (some (st.mapping.getD
              { recipient := "email", name := "name", subject := none }).recipient) "email")) ≠ "" →
        (addManualRow st).1.csv =
          some { headers := (st.csv.map (·.headers)).getD DEFAULT_HEADERS
                 rows := (st.csv.map (·.rows)).getD [] ++ [st.manualRow]
                 rowCount := ((st.csv.map (·.rows)).getD []).length + 1 }) := by
  constructor
  · intro hempty
    simp [addManualRow, hempty]
  · intro hfull
    cases hc : st.csv with
    | none => simp [addManualRow, hc, hfull]
    | some c => simp [addManualRow, hc, hfull]

/-- Witness for C6: `{name: "Jane", email: ""}` under `recipientColumn =
"email"` is rejected with the table unchanged; filling the email appends
the row. -/
theorem addManualRow_spec_witness :
    (addManualRow
        { csv := some { headers := ["email", "name"], rows := [], rowCount := 0 },
          mapping := some { recipient := "email", name := "name", subject := none },
          error := none, manualRow := [("name", "Jane"), ("email", "")] }).1.csv =
      some { headers := ["email", "name"], rows := [], rowCount := 0 } ∧
    (addManualRow
        { csv := some { headers := ["email", "name"], rows := [], rowCount := 0 },
          mapping := some { recipient := "email", name := "name", subject := none },
          error := none, manualRow := [("name", "Jane"), ("email", "jane@x.com")] }).1.csv =
      some { headers := ["email", "name"], rows := [[("name", "Jane"), ("email", "jane@x.com")]],
             rowCount := 1 } := by
  constructor
  · exact ((addManualRow_spec
      { csv := some { headers := ["email", "name"], rows := [], rowCount := 0 },
        mapping := some { recipient := "email", name := "name", subject := none },
        error := none, manualRow := [("name", "Jane"), ("email", "")] }).1 (by decide)).1
  · exact (addManualRow_spec
      { csv := some { headers := ["email", "name"], rows := [], rowCount := 0 },
        mapping := some { recipient := "email", name := "name", subject := none },
        error := none, manualRow := [("name", "Jane"), ("email", "jane@x.com")] }).2 (by decide)

/-- The invariant the `ParsedCsv` states maintain: the stored `rowCount`
is the length of the row list. -/
def RowCountInv (st : CsvState) : Prop :=
  ∀ c, st.csv = some c → c.rowCount = c.rows.length

/-- C10: every operation that constructs or mutates the table — load,
manual-entry initialization, manual row append, and row deletion —
preserves `rowCount = rows.length`. -/
theorem rowCount_invariant (st : CsvState) (hInv : RowCountInv st) :
    (∀ headers rows, RowCountInv (handleFile headers rows st).1) ∧
    RowCountInv (initializeManualEntry st) ∧
    RowCountInv (addManualRow st).1 ∧
    (∀ i, RowCountInv (deleteRow i st).1) := by
  refine ⟨?_, ?_, ?_, ?_⟩
  · intro headers rows
    by_cases hh : headers.length = 0
    · simp only [handleFile, if_pos hh]
      intro c hc
      exact hInv c hc
    · simp only [handleFile, if_neg hh]
      intro c hc
      cases hc
      rfl
  · unfold initializeManualEntry
    cases hc : st.csv with
    | none =>
      intro c h
      cases h
      rfl
    | some c0 =>
      intro c h
      have h' : some c0 = some c := h
      cases h'
      exact hInv c0 hc
  · unfold addManualRow
    by_cases hempty : jsTrim (rowGet st.manualRow
        (jsOrStr (some (st.mapping.getD
            { recipient := "email", name := "name", subject := none }).recipient) "email")) = ""
    · simp only [if_pos hempty]
      intro c hc
      exact hInv c hc
    · simp only [if_neg hempty]
      intro c hc
      cases hc
      rfl
  · intro i
    unfold deleteRow
    cases hc : st.csv with
    | none =>
      intro c h
      have h' : st.csv = some c := h
      rw [hc] at h'
      exact Option.noConfusion h'
    | some c0 =>
      intro c h
      have h' : some { headers := c0.headers,
                       rows := (c0.rows.enum.filter (fun p => p.1 ≠ i)).map (·.2),
                       rowCount := ((c0.rows.enum.filter (fun p => p.1 ≠ i)).map (·.2)).length } =
          some c := h
      cases h'
      rfl

/-- Witness for C10: starting from the empty state (which trivially
satisfies the invariant), manual-entry initialization produces a table
with `rowCount = rows.length`. -/
theorem rowCount_invariant_witness :
    RowCountInv (initializeManualEntry
      { csv := none, mapping := none, error := none, manualRow := [] }) :=
  (rowCount_invariant { csv := none, mapping := none, error := none, manualRow := [] }
    (fun c hc => by cases hc)).2.1

theorem processFiles_append (xs ys : List UFile) :
    processFiles (xs ++ ys) =
      ((processFiles xs).1 ++ (processFiles ys).1, (processFiles xs).2 ++ (processFiles ys).2) := by
  induction xs with
  | nil => simp [processFiles]
  | cons f fs ih =>
    cases hf : f.decoded with
    | none => simp [processFiles, hf, ih]
    | some b64 => simp [processFiles, hf, ih]

theorem processFiles_mem_of_decoded :
    ∀ (fs : List UFile) (f : UFile) (d : String), f ∈ fs → f.decoded = some d →
      (keyOf f, entryOf f d) ∈ (processFiles fs).1 := by
  intro fs
  induction fs with
  | nil => intro f d hmem; cases hmem
  | cons g gs ih =>
    intro f d hmem hd
    rcases List.mem_cons.mp hmem with heq | htail
    · subst heq
      simp [processFiles, hd]
    · have htl := ih f d htail hd
      cases hg : g.decoded with
      | none => simpa [processFiles, hg] using htl
      | some b => simp [processFiles, hg, htl]

theorem onUploadLoop_append (xs ys : List UFile) :
    ∀ (idx : AttachIndex) (failed : List String),
      onUploadLoop (xs ++ ys) idx failed =
        onUploadLoop ys (onUploadLoop xs idx failed).1 (onUploadLoop xs idx failed).2 := by
  induction xs with
  | nil => intro idx failed; simp [onUploadLoop]
  | cons f fs ih =>
    intro idx failed
    cases hf : f.decoded with
    | none => simp [onUploadLoop, hf, ih]
    | some b64 => simp [onUploadLoop, hf, ih]

theorem onUploadLoop_fst_indep (fs : List UFile) :
    ∀ (idx : AttachIndex) (f1 f2 : List String),
      (onUploadLoop fs idx f1).1 = (onUploadLoop fs idx f2).1 := by
  induction fs with
  | nil => intro idx f1 f2; rfl
  | cons g gs ih =>
    intro idx f1 f2
    cases hg : g.decoded with
    | none =>
      simp only [onUploadLoop, hg]
      exact ih idx (f1 ++ [failedName g]) (f2 ++ [failedName g])
    | some b64 =>
      simp only [onUploadLoop, hg]
      exact ih (indexAppend idx (keyOf g) (entryOf g b64)) f1 f2

/-- C7: in an upload over a sequence of files, one file whose decode
fails contributes its name to the failed list and nothing else: the
committed items are exactly those of the same call without it, every
successfully decoded sibling is still keyed and committed, and the
client-side index built by `onUpload` is the same index the call without
the failing file would build. -/
theorem upload_partial_success (b : UFile) (hb : b.decoded = none) (xs ys : List UFile) :
    uploadAttachmentsAction (xs ++ b :: ys) =
      Except.ok ((processFiles (xs ++ ys)).1,
        (processFiles xs).2 ++ failedName b :: (processFiles ys).2) ∧
    (∀ f ∈ xs ++ b :: ys, ∀ d, f.decoded = some d →
      (keyOf f, entryOf f d) ∈ (processFiles (xs ++ ys)).1) ∧
    (∀ (idx : AttachIndex) (failed : List String),
      (onUploadLoop (xs ++ b :: ys) idx failed).1 = (onUploadLoop (xs ++ ys) idx failed).1) := by
  refine ⟨?_, ?_, ?_⟩
  · have hne : (xs ++ b :: ys).length ≠ 0 := by simp
    simp only [uploadAttachmentsAction, if_neg hne]
    rw [processFiles_append xs (b :: ys), processFiles_append xs ys]
    simp [processFiles, hb]
  · intro f hmem d hd
    rw [processFiles_append xs ys]
    rcases List.mem_append.mp hmem with hx | hxy
    · exact List.mem_append.mpr (Or.inl (processFiles_mem_of_decoded xs f d hx hd))
    · rcases List.mem_cons.mp hxy with heq | hy
      · rw [heq] at hd
        rw [hb] at hd
        cases hd
      · exact List.mem_append.mpr (Or.inr (processFiles_mem_of_decoded ys f d hy hd))
  · intro idx failed
    rw [onUploadLoop_append xs (b :: ys) idx failed, onUploadLoop_append xs ys idx failed]
    simp only [onUploadLoop, hb]
    exact onUploadLoop_fst_indep ys (onUploadLoop xs idx failed).1
      ((onUploadLoop xs idx failed).2 ++ [failedName b]) (onUploadLoop xs idx failed).2

/-- Witness for C7: a good file, a file whose decode throws, and another
good file — both good files are committed, the middle one only reports
its name. -/
theorem upload_partial_success_witness :
    uploadAttachmentsAction
        [{ name := "a.txt", type := "", size := some 1, decoded := some "QQ==" },
         { name := "bad.bin", type := "", size := some 2, decoded := none },
         { name := "c.txt", type := "", size := some 3, decoded := some "Qg==" }] =
      Except.ok
        ((processFiles
            [{ name := "a.txt", type := "", size := some 1, decoded := some "QQ==" },
             { name := "c.txt", type := "", size := some 3, decoded := some "Qg==" }]).1,
          (processFiles [{ name := "a.txt", type := "", size := some 1, decoded := some "QQ==" }]).2 ++
            failedName { name := "bad.bin", type := "", size := some 2, decoded := none } ::
              (processFiles [{ name := "c.txt", type := "", size := some 3, decoded := some "Qg==" }]).2) :=
  (upload_partial_success { name := "bad.bin", type := "", size := some 2, decoded := none } rfl
    [{ name := "a.txt", type := "", size := some 1, decoded := some "QQ==" }]
    [{ name := "c.txt", type := "", size := some 3, decoded := some "Qg==" }]).1

end Batchmail
